import Mathlib

set_option maxHeartbeats 1000000
set_option maxRecDepth 100000

/-!
Shallow embedding of `src/passwordChecker.py` (class `PasswordChecker`).

Strings are modelled as Lean `String` (a list of Unicode code points), which
matches Python `str` iteration, `len`, and code-point slicing.  Following the
note in spec §9 that character classification is left open between ASCII-only
and full-Unicode behaviour, the single-character classifiers below model
Python `str.isupper` / `str.islower` / `str.isdigit` / `str.lower` on the
ASCII range.
-/

/-- Python `str.isupper` on one character, modelled on the ASCII range. -/
def pyIsUpper (c : Char) : Bool := 65 ≤ c.toNat && c.toNat ≤ 90

/-- Python `str.islower` on one character, modelled on the ASCII range. -/
def pyIsLower (c : Char) : Bool := 97 ≤ c.toNat && c.toNat ≤ 122

/-- Python `str.isdigit` on one character, modelled on the ASCII range. -/
def pyIsDigit (c : Char) : Bool := 48 ≤ c.toNat && c.toNat ≤ 57

/-- Python `str.lower` on one character, modelled on the ASCII range. -/
def pyToLower (c : Char) : Char :=
  if pyIsUpper c then Char.ofNat (c.toNat + 32) else c

/-- Python `str.lower` on a string. -/
def pyLower (s : String) : String := ⟨s.data.map pyToLower⟩

/-- The constant `string.punctuation`, the 32 ASCII punctuation
    characters, given here by its code points
    (33-47, 58-64, 91-96, 123-126). -/
def string_punctuation : List Char :=
  [33, 34, 35, 36, 37, 38, 39, 40, 41, 42, 43, 44, 45, 46, 47,
   58, 59, 60, 61, 62, 63, 64,
   91, 92, 93, 94, 95, 96,
   123, 124, 125, 126].map Char.ofNat

/-- The list `self.common_passwords` from `PasswordChecker.__init__`. -/
def common_passwords : List String :=
  ["123456", "password", "12345678", "qwerty", "123456789", "1234", "111111", "dragon",
   "123123", "baseball", "football", "monkey", "letmein", "shadow", "master", "qwertyuiop"]

/-- Embeds `PasswordChecker.is_generic_password`:
    `password.lower() in (p.lower() for p in self.common_passwords)`. -/
def is_generic_password (password : String) : Bool :=
  common_passwords.any (fun p => pyLower password == pyLower p)

/-- Embeds `PasswordChecker.score_password`.  The Python original accumulates
    `score += ...` through a fixed sequence of independent checks; the sum
    below lists the contributions in the same order. -/
def score_password (password : String) : Nat :=
  if is_generic_password password then 0
  else
    (if password.length ≥ 8 then 2 else if password.length ≥ 5 then 1 else 0)
    + (if password.data.any pyIsUpper then 2 else 0)
    + (if password.data.any pyIsLower then 2 else 0)
    + (if password.data.any pyIsDigit then 2 else 0)
    + (if password.data.any (fun c => string_punctuation.contains c) then 2 else 0)

/-!
SHA-1 (`hashlib.sha1`), computed over the UTF-8 encoding of the password and
rendered as uppercase hexadecimal, exactly as
the source computes with `hashlib.sha1` and `.hexdigest().upper()`.
Bytes and 32-bit words are `Nat`s kept below 2^8 / 2^32 explicitly.
-/

/-- Truncate to a 32-bit word. -/
def w32 (n : Nat) : Nat := n % 4294967296

/-- Rotate a 32-bit word left by `b` bits. -/
def rotl (b x : Nat) : Nat := w32 (x * 2 ^ b) ||| (x / 2 ^ (32 - b))

/-- Big-endian byte rendering of `n` in `k` bytes. -/
def toBytesBE (k n : Nat) : List Nat :=
  (List.range k).map (fun i => n / 2 ^ (8 * (k - 1 - i)) % 256)

/-- UTF-8 encoding of one code point (Python `str.encode` with UTF-8). -/
def utf8EncodeChar (c : Char) : List Nat :=
  let n := c.toNat
  if n < 128 then [n]
  else if n < 2048 then [192 + n / 64, 128 + n % 64]
  else if n < 65536 then [224 + n / 4096, 128 + n / 64 % 64, 128 + n % 64]
  else [240 + n / 262144, 128 + n / 4096 % 64, 128 + n / 64 % 64, 128 + n % 64]

/-- UTF-8 encoding of a string as a byte list. -/
def utf8Bytes (s : String) : List Nat :=
  s.data.foldr (fun c acc => utf8EncodeChar c ++ acc) []

/-- SHA-1 message padding: append `0x80`, zero bytes up to 56 mod 64, and the
    64-bit big-endian bit length. -/
def sha1Pad (msg : List Nat) : List Nat :=
  let len := msg.length
  let z := (64 - (len + 9) % 64) % 64
  msg ++ [128] ++ List.replicate z 0 ++ toBytesBE 8 (len * 8)

/-- The `i`-th big-endian 32-bit word of a 64-byte chunk. -/
def wordAt (chunk : List Nat) (i : Nat) : Nat :=
  chunk.getD (4 * i) 0 * 16777216 + chunk.getD (4 * i + 1) 0 * 65536
    + chunk.getD (4 * i + 2) 0 * 256 + chunk.getD (4 * i + 3) 0

/-- Extend the 16 chunk words to the 80-word message schedule. -/
def sha1Schedule (chunk : List Nat) : List Nat :=
  (List.range 64).foldl
    (fun ws i =>
      ws ++ [rotl 1 (ws.getD (i + 13) 0 ^^^ ws.getD (i + 8) 0 ^^^ ws.getD (i + 2) 0 ^^^ ws.getD i 0)])
    ((List.range 16).map (wordAt chunk))

/-- SHA-1 round function for round `i`. -/
def sha1f (i b c d : Nat) : Nat :=
  if i < 20 then (b &&& c) ||| ((b ^^^ 4294967295) &&& d)
  else if i < 40 then b ^^^ c ^^^ d
  else if i < 60 then (b &&& c) ||| (b &&& d) ||| (c &&& d)
  else b ^^^ c ^^^ d

/-- SHA-1 round constant for round `i`. -/
def sha1k (i : Nat) : Nat :=
  if i < 20 then 1518500249
  else if i < 40 then 1859775393
  else if i < 60 then 2400959708
  else 3395469782

/-- The 80 SHA-1 rounds over one message schedule. -/
def sha1Rounds (ws : List Nat) (h : Nat × Nat × Nat × Nat × Nat) :
    Nat × Nat × Nat × Nat × Nat :=
  (List.range 80).foldl
    (fun st i =>
      let temp := w32 (rotl 5 st.1 + sha1f i st.2.1 st.2.2.1 st.2.2.2.1 + st.2.2.2.2
        + sha1k i + ws.getD i 0)
      (temp, st.1, rotl 30 st.2.1, st.2.2.1, st.2.2.2.1))
    h

/-- Process one 64-byte chunk into the running hash state. -/
def sha1ProcessChunk (h : Nat × Nat × Nat × Nat × Nat) (chunk : List Nat) :
    Nat × Nat × Nat × Nat × Nat :=
  let s := sha1Rounds (sha1Schedule chunk) h
  (w32 (h.1 + s.1), w32 (h.2.1 + s.2.1), w32 (h.2.2.1 + s.2.2.1),
   w32 (h.2.2.2.1 + s.2.2.2.1), w32 (h.2.2.2.2 + s.2.2.2.2))

/-- Split a list into 64-byte chunks (fuel = number of chunks, so the
    recursion is structural). -/
def chunksGo : Nat → List Nat → List (List Nat)
  | 0, _ => []
  | n + 1, l => l.take 64 :: chunksGo n (l.drop 64)

/-- Split a padded message (length a multiple of 64) into 64-byte chunks. -/
def chunks64 (l : List Nat) : List (List Nat) := chunksGo (l.length / 64) l

/-- SHA-1 digest of a byte list, as a list of 20 bytes. -/
def sha1Digest (msg : List Nat) : List Nat :=
  let s := (chunks64 (sha1Pad msg)).foldl sha1ProcessChunk
    (1732584193, 4023233417, 2562383102, 271733878, 3285377520)
  toBytesBE 4 s.1 ++ toBytesBE 4 s.2.1 ++ toBytesBE 4 s.2.2.1
    ++ toBytesBE 4 s.2.2.2.1 ++ toBytesBE 4 s.2.2.2.2

/-- Uppercase hexadecimal digit for `n < 16`. -/
def hexDigitUpper (n : Nat) : Char :=
  if n < 10 then Char.ofNat (48 + n) else Char.ofNat (55 + n)

/-- Render a byte list as uppercase hexadecimal
    (`.hexdigest().upper()` in the source). -/
def bytesToHexUpper (bs : List Nat) : String :=
  ⟨bs.foldr (fun b acc => hexDigitUpper (b / 16) :: hexDigitUpper (b % 16) :: acc) []⟩

/-- Computes the SHA-1 of the UTF-8 encoded password as uppercase hex,
    mirroring `hashlib.sha1` with `.hexdigest().upper()` in the source. -/
def sha1HexUpper (password : String) : String :=
  bytesToHexUpper (sha1Digest (utf8Bytes password))

/-!
Python string helpers used by `check_pwned_password`:
`str[:5]` / `str[5:]` slicing, `str.splitlines()`, `str.split(':')`, and
`int(str)`.  All are defined over the code-point list so that they are
directly executable.
-/

/-- Python slicing `s[:n]` (by code points). -/
def strTake (s : String) (n : Nat) : String := ⟨s.data.take n⟩

/-- Python slicing `s[n:]` (by code points). -/
def strDrop (s : String) (n : Nat) : String := ⟨s.data.drop n⟩

/-- A Python line-boundary character for `str.splitlines`:
    `\n`, `\r`, `\v`, `\f`, FS, GS, RS, NEL, LINE SEPARATOR, PARA SEPARATOR. -/
def pyLineBoundary (c : Char) : Bool :=
  c.toNat = 10 || c.toNat = 13 || c.toNat = 11 || c.toNat = 12 ||
  c.toNat = 28 || c.toNat = 29 || c.toNat = 30 ||
  c.toNat = 133 || c.toNat = 8232 || c.toNat = 8233

/-- Worker for `pySplitlines`: `acc` is the current line, reversed.
    `\r\n` counts as a single boundary; a trailing boundary does not
    produce an extra empty line. -/
def pySplitlinesGo : List Char → List Char → List String
  | [], acc => if acc.isEmpty then [] else [⟨acc.reverse⟩]
  | '\r' :: '\n' :: rest, acc => (⟨acc.reverse⟩ : String) :: pySplitlinesGo rest []
  | c :: rest, acc =>
    if pyLineBoundary c then (⟨acc.reverse⟩ : String) :: pySplitlinesGo rest []
    else pySplitlinesGo rest (c :: acc)

/-- Python `str.splitlines()`. -/
def pySplitlines (s : String) : List String := pySplitlinesGo s.data []

/-- Worker for `pySplitColon`: `acc` is the current field, reversed. -/
def splitColonGo : List Char → List Char → List String
  | [], acc => [⟨acc.reverse⟩]
  | c :: rest, acc =>
    if c = ':' then (⟨acc.reverse⟩ : String) :: splitColonGo rest []
    else splitColonGo rest (c :: acc)

/-- Python `str.split(':')`: every colon separates, empty fields kept. -/
def pySplitColon (s : String) : List String := splitColonGo s.data []

/-- A character stripped by Python `str.strip()`, modelled on the ASCII
    whitespace range. -/
def pyIsSpace (c : Char) : Bool :=
  (9 ≤ c.toNat && c.toNat ≤ 13) || (28 ≤ c.toNat && c.toNat ≤ 32)

/-- Worker for the digit run of `int(str)`: consumes ASCII digits with
    single underscores allowed between digits. -/
def pyDigitsGo : List Char → Nat → Option Nat
  | [], acc => some acc
  | c :: rest, acc =>
    if pyIsDigit c then pyDigitsGo rest (acc * 10 + (c.toNat - 48))
    else if c = '_' then
      match rest with
      | d :: _ => if pyIsDigit d then pyDigitsGo rest acc else none
      | [] => none
    else none

/-- The digit run of `int(str)`: nonempty, starts with a digit. -/
def pyDigits (l : List Char) : Option Nat :=
  match l with
  | c :: _ => if pyIsDigit c then pyDigitsGo l 0 else none
  | [] => none

/-- Python `int(str)` (`ValueError` is `none`): optional surrounding
    whitespace, optional sign, then a nonempty ASCII digit run with
    underscores allowed between digits.  Non-ASCII digit forms are outside
    this model. -/
def pyInt (s : String) : Option Int :=
  match (s.data.dropWhile pyIsSpace).reverse.dropWhile pyIsSpace |>.reverse with
  | '+' :: rest => (pyDigits rest).map (fun n => (n : Int))
  | '-' :: rest => (pyDigits rest).map (fun n => -(n : Int))
  | rest => (pyDigits rest).map (fun n => (n : Int))

/-!
The HTTP layer.  `requests.get(url, timeout=10)` either returns a response
(status code and text body) or raises a `RequestException` (DNS failure,
connection refused, timeout, ...).  The remote service is modelled as a
function from the request URL to that outcome; `response.raise_for_status()`
raises `HTTPError` exactly for status codes 400-599.
-/

/-- Outcome of `requests.get` for one URL. -/
inductive HttpOutcome where
  | response (status : Nat) (body : String)
  | transportError (cause : String)
deriving DecidableEq

/-- The exceptions `check_pwned_password` can raise: the `RuntimeError`
    re-raised from a `RequestException`, the `ValueError` from unpacking a
    line that does not split into exactly two fields, and the `ValueError`
    from `int()` on a bad count literal. -/
inductive CheckError where
  | networkError (cause : String)
  | valueErrorUnpack
  | valueErrorInt (lit : String)
deriving DecidableEq

instance : DecidableEq (Except CheckError Int)
  | .ok x, .ok y =>
    match decEq x y with
    | .isTrue h => .isTrue (congrArg Except.ok h)
    | .isFalse h => .isFalse (fun he => h (Except.ok.inj he))
  | .error x, .error y =>
    match decEq x y with
    | .isTrue h => .isTrue (congrArg Except.error h)
    | .isFalse h => .isFalse (fun he => h (Except.error.inj he))
  | .ok _, .error _ => .isFalse (fun he => Except.noConfusion he)
  | .error _, .ok _ => .isFalse (fun he => Except.noConfusion he)

/-- Models `requests.get` followed by `response.raise_for_status()`:
    transport errors and 4xx/5xx statuses are `RequestException`s, any
    other status yields the body. -/
def getAndRaiseForStatus (net : String → HttpOutcome) (url : String) :
    Except String String :=
  match net url with
  | .transportError cause => .error cause
  | .response status body =>
    if 400 ≤ status ∧ status < 600 then .error ("HTTP error " ++ toString status)
    else .ok body

/-- The scan loop `for h, count in hashes: ...` of `check_pwned_password`:
    each line is split on `:` and unpacked into exactly two fields (else
    `ValueError`); the first line whose hash field equals `sfx` returns
    `int(count)`; if no line matches, 0. -/
def scanHashes (sfx : String) : List String → Except CheckError Int
  | [] => .ok 0
  | line :: rest =>
    match pySplitColon line with
    | [h, count] =>
      if h = sfx then
        match pyInt count with
        | some n => .ok n
        | none => .error (.valueErrorInt count)
      else scanHashes sfx rest
    | _ => .error .valueErrorUnpack

/-- Embeds `PasswordChecker.check_pwned_password`, with the remote service passed
    in as `net`.  A raised exception is modelled as `Except.error`. -/
def check_pwned_password (net : String → HttpOutcome) (password : String) :
    Except CheckError Int :=
  let sha1password := sha1HexUpper password
  let pfx := strTake sha1password 5
  let sfx := strDrop sha1password 5
  let url := "https://api.pwnedpasswords.com/range/" ++ pfx
  match getAndRaiseForStatus net url with
  | .error cause => .error (.networkError ("Network error: " ++ cause))
  | .ok body => scanHashes sfx (pySplitlines body)

/-- The request URL `check_pwned_password` sends for a given password. -/
def requestUrl (password : String) : String :=
  "https://api.pwnedpasswords.com/range/" ++ strTake (sha1HexUpper password) 5

/-- The punctuation class as the spec words it: the 32 printable,
    non-alphanumeric, non-space ASCII characters
    (code points 33-47, 58-64, 91-96, 123-126). -/
def isAsciiPunct (c : Char) : Bool :=
  (33 ≤ c.toNat && c.toNat ≤ 47) || (58 ≤ c.toNat && c.toNat ≤ 64) ||
  (91 ≤ c.toNat && c.toNat ≤ 96) || (123 ≤ c.toNat && c.toNat ≤ 126)

/-- An uppercase hexadecimal digit (`0`-`9`, `A`-`F`). -/
def isHexUpperDigit (c : Char) : Bool :=
  (48 ≤ c.toNat && c.toNat ≤ 57) || (65 ≤ c.toNat && c.toNat ≤ 70)

/-- One `SUFFIX:COUNT` line parsed into its two fields, `none` when the
    line does not have exactly two `:`-separated fields or the count is not
    an integer literal. -/
def parseRecord (line : String) : Option (String × Int) :=
  match pySplitColon line with
  | [f, c] => (pyInt c).map (fun n => (f, n))
  | _ => none

/-- All lines of a response body parsed, `none` if any line is malformed. -/
def parseLines : List String → Option (List (String × Int))
  | [] => some []
  | line :: rest =>
    match parseRecord line, parseLines rest with
    | some r, some rs => some (r :: rs)
    | _, _ => none

/-- Stated from the spec wording (§4.2 steps 5-6): the count of the first
    record whose suffix equals the computed suffix, 0 if none matches. -/
def specBucketCount (records : List (String × Int)) (sfx : String) : Int :=
  match records with
  | [] => 0
  | (f, c) :: rest => if f = sfx then c else specBucketCount rest sfx

/-!
Sanity checks: the test vectors named in the spec, a known SHA-1 vector,
and three concrete runs of the breach checker against a mocked service.
-/

example : score_password "abc" = 2 := by decide
example : score_password "" = 0 := by decide
example : score_password "Tr0ub4dor&3" = 10 := by decide
example : score_password "password" = 0 := by decide
example : score_password "PassWord" = 0 := by decide

/-- Known SHA-1 test vector, tying the embedding to the real function. -/
theorem sha1HexUpper_password :
    sha1HexUpper "password" = "5BAA61E4C9B93F3F0682250B6CF8331B7EE68FD8" := by decide

example :
    check_pwned_password
      (fun _ => .response 200 "1E4C9B93F3F0682250B6CF8331B7EE68FD8:42") "password"
      = .ok 42 := by decide

example :
    check_pwned_password (fun _ => .response 500 "") "password"
      = .error (.networkError "Network error: HTTP error 500") := by decide

example :
    check_pwned_password (fun _ => .response 200 "AAA:1\nBBB") "password"
      = .error .valueErrorUnpack := by decide

/-!
Supporting definitions and lemmas for the claims about the scorer.
-/

lemma char_eq_of_toNat_eq {c d : Char} (h : c.toNat = d.toNat) : c = d :=
  Char.eq_of_val_eq (UInt32.eq_of_toBitVec_eq (BitVec.eq_of_toNat_eq h))

lemma mem_string_punctuation_iff (c : Char) :
    c ∈ string_punctuation ↔ isAsciiPunct c = true := by
  constructor
  · intro h
    simp only [string_punctuation, List.mem_map] at h
    obtain ⟨n, hn, rfl⟩ := h
    simp only [List.mem_cons, List.not_mem_nil, or_false] at hn
    rcases hn with rfl | rfl | rfl | rfl | rfl | rfl | rfl | rfl | rfl | rfl | rfl | rfl |
      rfl | rfl | rfl | rfl | rfl | rfl | rfl | rfl | rfl | rfl | rfl | rfl | rfl | rfl |
      rfl | rfl | rfl | rfl | rfl | rfl <;> decide
  · intro hp
    have hn : c.toNat ∈
        [33, 34, 35, 36, 37, 38, 39, 40, 41, 42, 43, 44, 45, 46, 47,
         58, 59, 60, 61, 62, 63, 64, 91, 92, 93, 94, 95, 96, 123, 124, 125, 126] := by
      simp only [isAsciiPunct, Bool.or_eq_true, Bool.and_eq_true, decide_eq_true_eq] at hp
      simp only [List.mem_cons, List.not_mem_nil, or_false]
      omega
    exact List.mem_map.mpr ⟨c.toNat, hn, Char.ofNat_toNat c⟩

lemma string_punctuation_contains (c : Char) :
    string_punctuation.contains c = isAsciiPunct c := by
  cases hb : isAsciiPunct c
  · rw [← Bool.not_eq_true, List.elem_iff]
    intro hmem
    have := (mem_string_punctuation_iff c).mp hmem
    rw [hb] at this
    exact Bool.false_ne_true this
  · exact List.elem_iff.mpr ((mem_string_punctuation_iff c).mpr hb)

/-- The punctuation class has exactly 32 characters in the ASCII range. -/
lemma isAsciiPunct_card :
    ((List.range 128).filter (fun n => isAsciiPunct (Char.ofNat n))).length = 32 := by
  decide

/-- Value of `score_password` on a password outside the common list, as the
    sum of the five checks. -/
lemma score_password_of_not_generic (p : String) (h : is_generic_password p = false) :
    score_password p =
      (if p.length ≥ 8 then 2 else if p.length ≥ 5 then 1 else 0)
      + (if p.data.any pyIsUpper then 2 else 0)
      + (if p.data.any pyIsLower then 2 else 0)
      + (if p.data.any pyIsDigit then 2 else 0)
      + (if p.data.any (fun c => string_punctuation.contains c) then 2 else 0) := by
  simp [score_password, h]

lemma lengthBonus_mono {a b : Nat} (h8 : a ≥ 8 → b ≥ 8) (h5 : a ≥ 5 → b ≥ 5) :
    (if a ≥ 8 then 2 else if a ≥ 5 then 1 else 0)
      ≤ (if b ≥ 8 then 2 else if b ≥ 5 then 1 else 0) := by
  by_cases a8 : a ≥ 8
  · simp [a8, h8 a8]
  · by_cases a5 : a ≥ 5
    · have b5 := h5 a5
      simp only [if_neg a8, if_pos a5]
      split_ifs <;> omega
    · simp only [if_neg a8, if_neg a5]
      exact Nat.zero_le _

lemma indicator_mono {x y : Bool} (h : x = true → y = true) :
    (if x then 2 else 0) ≤ (if y then 2 else 0) := by
  cases x
  · cases y <;> simp
  · simp [h rfl]

/-- Claim C2: for every password not (case-insensitively) in the common list,
    the score is the length bonus (2 for length ≥ 8, else 1 for length ≥ 5,
    else 0) plus 2 for each of the four character classes present, with the
    punctuation class being the 32 printable non-alphanumeric non-space
    ASCII characters. -/
theorem score_is_sum_of_class_indicators (p : String)
    (h : is_generic_password p = false) :
    score_password p =
      (if p.length ≥ 8 then 2 else if p.length ≥ 5 then 1 else 0)
      + 2 * (if p.data.any pyIsUpper then 1 else 0)
      + 2 * (if p.data.any pyIsLower then 1 else 0)
      + 2 * (if p.data.any pyIsDigit then 1 else 0)
      + 2 * (if p.data.any isAsciiPunct then 1 else 0) := by
  have hpunct : p.data.any (fun c => string_punctuation.contains c) = p.data.any isAsciiPunct := by
    simp only [string_punctuation_contains]
  rw [score_password_of_not_generic p h, hpunct]
  split_ifs <;> omega

/-- Witness for C2 at `"Tr0ub4dor&3"` (length 11, all four classes). -/
theorem score_is_sum_of_class_indicators_witness :
    is_generic_password "Tr0ub4dor&3" = false ∧
    score_password "Tr0ub4dor&3" =
      (if ("Tr0ub4dor&3" : String).length ≥ 8 then 2
        else if ("Tr0ub4dor&3" : String).length ≥ 5 then 1 else 0)
      + 2 * (if ("Tr0ub4dor&3" : String).data.any pyIsUpper then 1 else 0)
      + 2 * (if ("Tr0ub4dor&3" : String).data.any pyIsLower then 1 else 0)
      + 2 * (if ("Tr0ub4dor&3" : String).data.any pyIsDigit then 1 else 0)
      + 2 * (if ("Tr0ub4dor&3" : String).data.any isAsciiPunct then 1 else 0) :=
  ⟨by decide, score_is_sum_of_class_indicators "Tr0ub4dor&3" (by decide)⟩

/-- Claim C3: any string that case-insensitively equals an entry of the
    common-password list scores exactly 0. -/
theorem score_zero_on_common (s e : String) (he : e ∈ common_passwords)
    (hlow : pyLower s = pyLower e) : score_password s = 0 := by
  have hg : is_generic_password s = true := by
    unfold is_generic_password
    rw [List.any_eq_true]
    exact ⟨e, he, by rw [hlow]; exact beq_self_eq_true _⟩
  simp [score_password, hg]

/-- Witness for C3 at `"PaSsWoRd"`, a casing of the list entry
    `"password"` that, but for the short-circuit, has length ≥ 8 and both
    letter cases. -/
theorem score_zero_on_common_witness :
    "password" ∈ common_passwords ∧
    pyLower "PaSsWoRd" = pyLower "password" ∧
    score_password "PaSsWoRd" = 0 :=
  ⟨by decide, by decide, score_zero_on_common "PaSsWoRd" "password" (by decide) (by decide)⟩

/-- Claim C6: the scorer is total on strings (`score_password` is defined
    for every `String`, including the empty string); its value always
    lies in [0, 10], and the empty string scores 0. -/
theorem score_total_in_range :
    (∀ p : String, 0 ≤ score_password p ∧ score_password p ≤ 10) ∧
    score_password "" = 0 := by
  refine ⟨fun p => ⟨Nat.zero_le _, ?_⟩, by decide⟩
  unfold score_password
  split_ifs <;> omega

/-- Claim C7: on non-common passwords the score is monotone in the satisfied
    checks: if `t` satisfies every length tier and character class that `s`
    satisfies, then `t` scores at least as much. -/
theorem score_monotone_in_checks (s t : String)
    (hs : is_generic_password s = false) (ht : is_generic_password t = false)
    (h8 : s.length ≥ 8 → t.length ≥ 8)
    (h5 : s.length ≥ 5 → t.length ≥ 5)
    (hu : s.data.any pyIsUpper = true → t.data.any pyIsUpper = true)
    (hl : s.data.any pyIsLower = true → t.data.any pyIsLower = true)
    (hd : s.data.any pyIsDigit = true → t.data.any pyIsDigit = true)
    (hp : s.data.any (fun c => string_punctuation.contains c) = true →
          t.data.any (fun c => string_punctuation.contains c) = true) :
    score_password s ≤ score_password t := by
  rw [score_password_of_not_generic s hs, score_password_of_not_generic t ht]
  exact Nat.add_le_add
    (Nat.add_le_add
      (Nat.add_le_add
        (Nat.add_le_add (lengthBonus_mono h8 h5) (indicator_mono hu))
        (indicator_mono hl))
      (indicator_mono hd))
    (indicator_mono hp)

/-- Witness for C7: `"abc"` (lowercase only) vs `"Abc123!x"` (all checks). -/
theorem score_monotone_in_checks_witness :
    score_password "abc" ≤ score_password "Abc123!x" :=
  score_monotone_in_checks "abc" "Abc123!x" (by decide) (by decide) (by decide)
    (by decide) (by decide) (by decide) (by decide) (by decide)

/-- Claim C10: both operations are pure functions of their arguments (the
    scorer of the password, the breach checker of the password and the
    service response), so two calls on the same input return the same
    result; in this embedding determinism is structural. -/
theorem score_and_check_deterministic :
    (∀ p : String, score_password p = score_password p) ∧
    (∀ (net : String → HttpOutcome) (p : String),
      check_pwned_password net p = check_pwned_password net p) :=
  ⟨fun _ => rfl, fun _ _ => rfl⟩

/-!
Supporting lemmas for the claims about the breach checker: the shape of the
rendered hash, reduction of `check_pwned_password` under each outcome of the
HTTP call, and a parsed view of well-formed response bodies.
-/

lemma toBytesBE_length (k n : Nat) : (toBytesBE k n).length = k := by
  simp [toBytesBE]

lemma toBytesBE_lt (k n : Nat) : ∀ b ∈ toBytesBE k n, b < 256 := by
  intro b hb
  simp only [toBytesBE, List.mem_map] at hb
  obtain ⟨i, _, rfl⟩ := hb
  exact Nat.mod_lt _ (by omega)

lemma sha1Digest_length (msg : List Nat) : (sha1Digest msg).length = 20 := by
  unfold sha1Digest
  simp [toBytesBE_length]

lemma sha1Digest_lt (msg : List Nat) : ∀ b ∈ sha1Digest msg, b < 256 := by
  intro b hb
  unfold sha1Digest at hb
  simp only [List.mem_append] at hb
  rcases hb with (((h | h) | h) | h) | h <;> exact toBytesBE_lt _ _ _ h

lemma bytesToHexUpper_length (bs : List Nat) :
    (bytesToHexUpper bs).length = 2 * bs.length := by
  show (bs.foldr (fun b acc => hexDigitUpper (b / 16) :: hexDigitUpper (b % 16) :: acc) []).length
    = 2 * bs.length
  induction bs with
  | nil => rfl
  | cons b t ih => simp only [List.foldr_cons, List.length_cons, ih]; omega

lemma hexDigitUpper_isHex {n : Nat} (h : n < 16) :
    isHexUpperDigit (hexDigitUpper n) = true := by
  interval_cases n <;> decide

lemma bytesToHexUpper_hex (bs : List Nat) (hbs : ∀ b ∈ bs, b < 256) :
    ∀ c ∈ (bytesToHexUpper bs).data, isHexUpperDigit c = true := by
  induction bs with
  | nil => intro c hc; exact absurd hc (List.not_mem_nil c)
  | cons b t ih =>
    intro c hc
    have hdata : (bytesToHexUpper (b :: t)).data
        = hexDigitUpper (b / 16) :: hexDigitUpper (b % 16) :: (bytesToHexUpper t).data := rfl
    rw [hdata] at hc
    simp only [List.mem_cons] at hc
    have hb : b < 256 := hbs b (by simp)
    rcases hc with rfl | rfl | hc
    · exact hexDigitUpper_isHex (by omega)
    · exact hexDigitUpper_isHex (Nat.mod_lt _ (by omega))
    · exact ih (fun x hx => hbs x (by simp [hx])) c hc

/-- The rendered hash is always 40 characters long. -/
lemma sha1HexUpper_length (pw : String) : (sha1HexUpper pw).length = 40 := by
  unfold sha1HexUpper
  rw [bytesToHexUpper_length, sha1Digest_length]

/-- Every character of the rendered hash is an uppercase hex digit. -/
lemma sha1HexUpper_isHex (pw : String) :
    ∀ c ∈ (sha1HexUpper pw).data, isHexUpperDigit c = true :=
  bytesToHexUpper_hex _ (sha1Digest_lt _)

/-- Reduction of `check_pwned_password` when the service replies with a non-4xx/5xx
    status: it scans the body for the 35-character hash suffix. -/
lemma check_eq_of_response (net : String → HttpOutcome) (pw body : String) (status : Nat)
    (hnet : net (requestUrl pw) = .response status body)
    (hs : ¬(400 ≤ status ∧ status < 600)) :
    check_pwned_password net pw
      = scanHashes (strDrop (sha1HexUpper pw) 5) (pySplitlines body) := by
  unfold requestUrl at hnet
  simp only [check_pwned_password, getAndRaiseForStatus, hnet]
  rw [if_neg hs]

/-- Reduction of `check_pwned_password` when the transport fails. -/
lemma check_eq_of_transport (net : String → HttpOutcome) (pw cause : String)
    (hnet : net (requestUrl pw) = .transportError cause) :
    check_pwned_password net pw
      = .error (.networkError ("Network error: " ++ cause)) := by
  unfold requestUrl at hnet
  simp only [check_pwned_password, getAndRaiseForStatus]
  rw [hnet]

/-- Reduction of `check_pwned_password` when the service replies with a 4xx/5xx status. -/
lemma check_eq_of_httpError (net : String → HttpOutcome) (pw body : String) (status : Nat)
    (hnet : net (requestUrl pw) = .response status body)
    (hs : 400 ≤ status ∧ status < 600) :
    check_pwned_password net pw
      = .error (.networkError ("Network error: " ++ ("HTTP error " ++ toString status))) := by
  unfold requestUrl at hnet
  simp only [check_pwned_password, getAndRaiseForStatus, hnet]
  rw [if_pos hs]

/-- Claim C1: the outbound request is a function of the first five characters
    of the uppercase SHA-1 hex hash alone: the URL is the fixed endpoint
    with that 5-character bucket appended, two passwords whose hashes agree
    on those five characters produce identical requests, and the result of
    the checker depends on the remote service only through its answer at that
    one URL (so nothing else about the password is transmitted). -/
theorem request_is_function_of_hash_bucket :
    (∀ p : String, requestUrl p
        = "https://api.pwnedpasswords.com/range/" ++ strTake (sha1HexUpper p) 5) ∧
    (∀ p q : String, strTake (sha1HexUpper p) 5 = strTake (sha1HexUpper q) 5 →
        requestUrl p = requestUrl q) ∧
    (∀ (net net' : String → HttpOutcome) (p : String),
        net (requestUrl p) = net' (requestUrl p) →
        check_pwned_password net p = check_pwned_password net' p) := by
  refine ⟨fun p => rfl, fun p q h => ?_, fun net net' p h => ?_⟩
  · unfold requestUrl
    rw [h]
  · unfold requestUrl at h
    simp only [check_pwned_password, getAndRaiseForStatus]
    rw [h]

/-- Witness for C1. -/
theorem request_is_function_of_hash_bucket_witness :
    requestUrl "abc" = requestUrl "abc" ∧
    check_pwned_password (fun _ => HttpOutcome.transportError "down") "abc"
      = check_pwned_password (fun _ => HttpOutcome.transportError "down") "abc" :=
  ⟨request_is_function_of_hash_bucket.2.1 "abc" "abc" rfl,
   request_is_function_of_hash_bucket.2.2 _ _ "abc" rfl⟩

/-- On a fully parseable body the scan loop returns exactly the bucket
    count stated from the spec. -/
lemma scan_of_parseLines (sfx : String) :
    ∀ (lines : List String) (records : List (String × Int)),
      parseLines lines = some records →
      scanHashes sfx lines = .ok (specBucketCount records sfx) := by
  intro lines
  induction lines with
  | nil =>
    intro records h
    simp only [parseLines, Option.some_inj] at h
    subst h
    rfl
  | cons line rest ih =>
    intro records h
    simp only [parseLines] at h
    cases hr : parseRecord line with
    | none => rw [hr] at h; exact absurd h (by simp)
    | some r =>
      cases hrs : parseLines rest with
      | none => rw [hr, hrs] at h; exact absurd h (by simp)
      | some rs =>
        rw [hr, hrs] at h
        simp only [Option.some_inj] at h
        subst h
        unfold parseRecord at hr
        rcases hsp : pySplitColon line with _ | ⟨f, _ | ⟨c, _ | ⟨d, tl⟩⟩⟩
        · rw [hsp] at hr; exact absurd hr (by simp)
        · rw [hsp] at hr; exact absurd hr (by simp)
        · rw [hsp] at hr
          change Option.map (fun n => (f, n)) (pyInt c) = some r at hr
          cases hint : pyInt c with
          | none => rw [hint] at hr; exact absurd hr (by simp)
          | some n =>
            rw [hint] at hr
            simp only [Option.map_some', Option.some_inj] at hr
            simp only [scanHashes, hsp]
            by_cases he : f = sfx
            · simp [he, hint, ← hr, specBucketCount]
            · simp [he, ← hr, specBucketCount, ih rs hrs]
        · rw [hsp] at hr; exact absurd hr (by simp)

/-- Claim C4: on a 200 response whose body is a well-formed newline-separated
    `SUFFIX:COUNT` list, the checker renders the 40-character uppercase hex
    SHA-1 hash of the password, splits off the 35-character suffix after the
    5-character bucket, and returns the count of the first record whose
    suffix equals it exactly, or 0 when none does. -/
theorem checkBreach_success_matches_spec (pw body : String)
    (net : String → HttpOutcome) (records : List (String × Int))
    (hnet : net (requestUrl pw) = .response 200 body)
    (hparse : parseLines (pySplitlines body) = some records) :
    check_pwned_password net pw
      = .ok (specBucketCount records (strDrop (sha1HexUpper pw) 5))
    ∧ (sha1HexUpper pw).length = 40
    ∧ (strTake (sha1HexUpper pw) 5).length = 5
    ∧ (strDrop (sha1HexUpper pw) 5).length = 35
    ∧ ∀ c ∈ (sha1HexUpper pw).data, isHexUpperDigit c = true := by
  have hlen : (sha1HexUpper pw).data.length = 40 := sha1HexUpper_length pw
  refine ⟨?_, sha1HexUpper_length pw, ?_, ?_, sha1HexUpper_isHex pw⟩
  · rw [check_eq_of_response net pw body 200 hnet (by omega)]
    exact scan_of_parseLines _ _ _ hparse
  · show ((sha1HexUpper pw).data.take 5).length = 5
    rw [List.length_take]
    omega
  · show ((sha1HexUpper pw).data.drop 5).length = 35
    rw [List.length_drop]
    omega

/-- Witness for C4: the breached fixture from the spec, `"password"`,
    against a mocked two-line bucket containing its suffix with count 42. -/
theorem checkBreach_success_matches_spec_witness :
    parseLines (pySplitlines "1E4C9B93F3F0682250B6CF8331B7EE68FD8:42\nABCDEF:7")
      = some [("1E4C9B93F3F0682250B6CF8331B7EE68FD8", 42), ("ABCDEF", 7)] ∧
    check_pwned_password
        (fun _ => HttpOutcome.response 200 "1E4C9B93F3F0682250B6CF8331B7EE68FD8:42\nABCDEF:7")
        "password"
      = .ok (specBucketCount [("1E4C9B93F3F0682250B6CF8331B7EE68FD8", 42), ("ABCDEF", 7)]
          (strDrop (sha1HexUpper "password") 5)) :=
  ⟨by decide,
   (checkBreach_success_matches_spec "password"
      "1E4C9B93F3F0682250B6CF8331B7EE68FD8:42\nABCDEF:7"
      (fun _ => HttpOutcome.response 200 "1E4C9B93F3F0682250B6CF8331B7EE68FD8:42\nABCDEF:7")
      [("1E4C9B93F3F0682250B6CF8331B7EE68FD8", 42), ("ABCDEF", 7)]
      rfl (by decide)).1⟩

/-- Counterexample to C5 as stated: 304 is not a success status (it is not
    2xx), yet `response.raise_for_status()` only raises for 4xx/5xx, so the
    checker treats the reply as success and returns the count 0. -/
theorem non2xx_status_returns_count_counterexample :
    check_pwned_password (fun _ => HttpOutcome.response 304 "") "password" = .ok 0
    ∧ ¬(200 ≤ 304 ∧ 304 ≤ 299) :=
  ⟨by decide, by omega⟩

/-- Claim C5, amended: any transport error or timeout, and any HTTP status
    in 400-599, is surfaced as a distinct network-error condition carrying
    the underlying cause, and in no such case is a count returned. -/
theorem network_failure_raises (pw : String) (net : String → HttpOutcome)
    (h : (∃ cause, net (requestUrl pw) = .transportError cause) ∨
         (∃ status body, net (requestUrl pw) = .response status body ∧
            400 ≤ status ∧ status < 600)) :
    (∃ c, check_pwned_password net pw = .error (.networkError c)) ∧
    ∀ n : Int, check_pwned_password net pw ≠ .ok n := by
  rcases h with ⟨cause, hc⟩ | ⟨status, body, hr, h4, h6⟩
  · have he := check_eq_of_transport net pw cause hc
    exact ⟨⟨_, he⟩, fun n hn => by rw [he] at hn; exact Except.noConfusion hn⟩
  · have he := check_eq_of_httpError net pw body status hr ⟨h4, h6⟩
    exact ⟨⟨_, he⟩, fun n hn => by rw [he] at hn; exact Except.noConfusion hn⟩

/-- Witness for C5 (amended): a refused connection and a 503 reply. -/
theorem network_failure_raises_witness :
    check_pwned_password (fun _ => HttpOutcome.transportError "connection refused") "secret"
      ≠ .ok 0
    ∧ check_pwned_password (fun _ => HttpOutcome.response 503 "") "secret" ≠ .ok 0 :=
  ⟨(network_failure_raises "secret" _ (Or.inl ⟨"connection refused", rfl⟩)).2 0,
   (network_failure_raises "secret" _ (Or.inr ⟨503, "", rfl, by omega, by omega⟩)).2 0⟩

/-- Counterexample to C8 as stated: over arbitrary response bodies the
    count is `int(count)` unchecked, so a body whose matching line carries
    the literal `-3` makes the checker return a negative count. -/
theorem negative_count_counterexample :
    check_pwned_password
        (fun _ => HttpOutcome.response 200 "1E4C9B93F3F0682250B6CF8331B7EE68FD8:-3")
        "password"
      = .ok (-3)
    ∧ ¬(0 : Int) ≤ -3 :=
  ⟨by decide, by omega⟩

/-- The scan loop only returns counts parsed out of the scanned lines, so
    when every parseable count field is nonnegative its result is too. -/
lemma scan_ok_nonneg (sfx : String) :
    ∀ lines : List String,
      (∀ line ∈ lines, ∀ f c, pySplitColon line = [f, c] →
        ∀ n : Int, pyInt c = some n → 0 ≤ n) →
      ∀ n : Int, scanHashes sfx lines = .ok n → 0 ≤ n := by
  intro lines
  induction lines with
  | nil =>
    intro _ n h
    simp only [scanHashes, Except.ok.injEq] at h
    omega
  | cons line rest ih =>
    intro hall n h
    rcases hsp : pySplitColon line with _ | ⟨f, _ | ⟨c, _ | ⟨d, tl⟩⟩⟩
    · simp only [scanHashes, hsp] at h; exact Except.noConfusion h
    · simp only [scanHashes, hsp] at h; exact Except.noConfusion h
    · simp only [scanHashes, hsp] at h
      by_cases he : f = sfx
      · rw [if_pos he] at h
        cases hint : pyInt c with
        | none => rw [hint] at h; exact Except.noConfusion h
        | some m =>
          rw [hint] at h
          have := hall line (by simp) f c hsp m hint
          simp only [Except.ok.injEq] at h
          omega
      · rw [if_neg he] at h
        exact ih (fun l hl => hall l (List.mem_cons_of_mem _ hl)) n h
    · simp only [scanHashes, hsp] at h; exact Except.noConfusion h

/-- Claim C8, amended: whenever every count field of the returned body, where
    it parses at all, is a nonnegative integer (as in every well-formed
    service response), a normal return of the checker is a count ≥ 0. -/
theorem count_nonneg_for_wellformed (pw : String) (net : String → HttpOutcome)
    (hbody : ∀ status body, net (requestUrl pw) = .response status body →
      ∀ line ∈ pySplitlines body, ∀ f c, pySplitColon line = [f, c] →
        ∀ n : Int, pyInt c = some n → 0 ≤ n)
    (n : Int) (hok : check_pwned_password net pw = .ok n) : 0 ≤ n := by
  rcases hout : net (requestUrl pw) with ⟨status, body⟩ | cause
  · by_cases h46 : 400 ≤ status ∧ status < 600
    · rw [check_eq_of_httpError net pw body status hout h46] at hok
      exact Except.noConfusion hok
    · rw [check_eq_of_response net pw body status hout h46] at hok
      exact scan_ok_nonneg _ _ (hbody status body hout) n hok
  · rw [check_eq_of_transport net pw cause hout] at hok
    exact Except.noConfusion hok

/-- Witness for C8 (amended): an empty 200 body yields the count 0. -/
theorem count_nonneg_for_wellformed_witness :
    check_pwned_password (fun _ => HttpOutcome.response 200 "") "secret" = .ok 0
    ∧ (0 : Int) ≤ 0 :=
  ⟨by decide,
   count_nonneg_for_wellformed "secret" (fun _ => HttpOutcome.response 200 "")
    (by
      intro status body hresp line hline f c hsp n hint
      cases hresp
      exact absurd hline (List.not_mem_nil line))
    0 (by decide)⟩

/-- The scan loop ignores leading lines that split into two fields whose
    hash field is not the computed suffix. -/
lemma scan_skips_clean (sfx : String) :
    ∀ (pre rest : List String),
      (∀ l ∈ pre, ∃ f c, pySplitColon l = [f, c] ∧ f ≠ sfx) →
      scanHashes sfx (pre ++ rest) = scanHashes sfx rest := by
  intro pre
  induction pre with
  | nil => intro rest _; rfl
  | cons l t ih =>
    intro rest hall
    obtain ⟨f, c, hsp, hne⟩ := hall l (by simp)
    show scanHashes sfx (l :: (t ++ rest)) = _
    simp only [scanHashes, hsp, if_neg hne]
    exact ih rest (fun x hx => hall x (by simp [hx]))

/-- Claim C9: if a 200 body has, before any line matching the computed
    suffix, a line that does not split on `:` into exactly two fields — or
    a matching line whose count is not an integer literal — the checker
    raises an exception distinct from the network-error condition instead
    of returning a count. -/
theorem malformed_line_raises (pw : String) (net : String → HttpOutcome)
    (body : String) (pre post : List String) (line : String)
    (hnet : net (requestUrl pw) = .response 200 body)
    (hsplit : pySplitlines body = pre ++ line :: post)
    (hpre : ∀ l ∈ pre, ∃ f c, pySplitColon l = [f, c]
      ∧ f ≠ strDrop (sha1HexUpper pw) 5)
    (hbad : (pySplitColon line).length ≠ 2 ∨
      ∃ f c, pySplitColon line = [f, c] ∧ f = strDrop (sha1HexUpper pw) 5
        ∧ pyInt c = none) :
    ∃ e, (check_pwned_password net pw = .error e
      ∧ ∀ cause, e ≠ CheckError.networkError cause) := by
  have hred := check_eq_of_response net pw body 200 hnet (by omega)
  rw [hsplit, scan_skips_clean _ pre _ hpre] at hred
  rcases hbad with hlen | ⟨f, c, hsp, hf, hint⟩
  · rcases hsp : pySplitColon line with _ | ⟨f, _ | ⟨c, _ | ⟨d, tl⟩⟩⟩
    · refine ⟨.valueErrorUnpack, ?_, fun cause hc => CheckError.noConfusion hc⟩
      rw [hred]
      simp [scanHashes, hsp]
    · refine ⟨.valueErrorUnpack, ?_, fun cause hc => CheckError.noConfusion hc⟩
      rw [hred]
      simp [scanHashes, hsp]
    · exact absurd (by rw [hsp]; rfl) hlen
    · refine ⟨.valueErrorUnpack, ?_, fun cause hc => CheckError.noConfusion hc⟩
      rw [hred]
      simp [scanHashes, hsp]
  · refine ⟨.valueErrorInt c, ?_, fun cause hc => CheckError.noConfusion hc⟩
    rw [hred]
    simp [scanHashes, hsp, if_pos hf, hint]

/-- Witness for C9: a one-line body with no `:` at all. -/
theorem malformed_line_raises_witness :
    check_pwned_password (fun _ => HttpOutcome.response 200 "AAA") "secret" ≠ .ok 0 := by
  obtain ⟨e, he, -⟩ := malformed_line_raises "secret"
    (fun _ => HttpOutcome.response 200 "AAA") "AAA" [] [] "AAA" rfl (by decide)
    (by intro l hl; exact absurd hl (List.not_mem_nil l))
    (Or.inl (by decide))
  rw [he]
  exact fun hc => Except.noConfusion hc
